import Mathlib

/-!
Verification of `src/variable_FK.py` (a Maya "variable FK" rig builder).

The script builds a dependency-node network inside the Maya scene.  This file
embeds the computational content of that network shallowly:

* Python strings are modelled as `List Char`; the naming routine
  `name_object` (variable_FK.py lines 13-40) is modelled character by
  character, including Python's `str.replace("___", "")`.
* The arithmetic Maya nodes wired by `build_variable_fk` (plusMinusAverage,
  multiplyDivide, remapValue, condition) are modelled as rational-valued
  functions, one per node, with the operation codes resolved to the semantics
  documented for the corresponding Maya node types:
  - plusMinusAverage: operation 1 = sum (the default), 2 = subtract;
  - multiplyDivide: operation 1 = multiply (the default), 2 = divide;
  - condition: operation 0 = equal (default), 1 = not equal, 2 = greater
    than, 3 = greater or equal, 4 = less than, 5 = less or equal;
  - remapValue: clamps `inputValue` into `[inputMin, inputMax]` (defaults 0
    and 1) and maps it linearly onto `[outputMin, outputMax]`.
* Scene numbers are modelled by `ℚ` (the script never relies on
  float-specific behaviour in the claims considered here), and the selection
  checks of `build_variable_fk` / `create_nurbs_surface` are modelled as an
  `Except`-valued guard evaluated before any scene mutation, mirroring the
  order of the checks in the source.
-/

namespace VariableFK

/-! ### Naming service (variable_FK.py lines 8-40) -/

/-- Configuration constant `system_name = "trunk_var_fk"` (line 9). -/
def system_name : List Char := "trunk_var_fk".toList

/-- Configuration constant `side = "__"` (line 10). -/
def side : List Char := ['_', '_']

/-- Configuration constant `suffix = True` (line 11). -/
def suffix : Bool := true

/-- Number of leading underscore characters of a character list.  Used to
express when Python's `str.replace("___", "")` finds a match at the current
scan position. -/
def leadingU : List Char → ℕ
  | [] => 0
  | c :: t => if c = '_' then leadingU t + 1 else 0

/-- Python's `s.replace("___", "")` (line 40): scan left to right; whenever
the current position starts a `"___"` occurrence, delete those three
characters and continue scanning after them; otherwise keep the character. -/
def replaceTripleUnderscore : List Char → List Char
  | '_' :: '_' :: '_' :: rest => replaceTripleUnderscore rest
  | c :: rest => c :: replaceTripleUnderscore rest
  | [] => []

/-- `name_object(name, node_name, include_system_name)` (lines 13-40) with the
module-level constants `system_name`, `side`, `suffix` fixed to the values set
at lines 9-11: compose the fields with `"_"` separators in suffix or prefix
order, then delete every `"___"` occurrence. -/
def name_object (name node_name : List Char) (include_system_name : Bool) :
    List Char :=
  replaceTripleUnderscore
    (if suffix then
      (if include_system_name then
        name ++ ['_'] ++ system_name ++ ['_'] ++ node_name ++ ['_'] ++ side
      else
        name ++ ['_'] ++ node_name ++ ['_'] ++ side)
    else
      (if include_system_name then
        side ++ ['_'] ++ name ++ ['_'] ++ system_name ++ ['_'] ++ node_name
      else
        side ++ ['_'] ++ name ++ ['_'] ++ node_name))

/-- `pat` occurs as a contiguous substring of `s`. -/
def occursIn (pat s : List Char) : Prop := ∃ u v, s = u ++ pat ++ v

/-- Unfolding equation for `replaceTripleUnderscore` on a cons cell, phrased
with an explicit test for a `"___"` match at the current position. -/
theorem replaceTriple_cons (c : Char) (t : List Char) :
    replaceTripleUnderscore (c :: t) =
      if c = '_' ∧ 2 ≤ leadingU t then replaceTripleUnderscore (t.drop 2)
      else c :: replaceTripleUnderscore t := by
  rcases t with _ | ⟨a, _ | ⟨b, t⟩⟩
  · simp [replaceTripleUnderscore, leadingU]
  · have h1 : leadingU [a] ≤ 1 := by
      by_cases ha : a = '_' <;> simp [leadingU, ha]
    rw [if_neg (by omega), replaceTripleUnderscore.eq_def]
    split <;> simp_all
  · by_cases hc : c = '_' <;> by_cases ha : a = '_' <;> by_cases hb : b = '_' <;>
      subst_vars <;> simp_all [replaceTripleUnderscore, leadingU]

/-- A list starting with at least two underscores is literally
`'_' :: '_' :: (rest)`. -/
theorem eq_cons_cons_of_two_le_leadingU {t : List Char} (h : 2 ≤ leadingU t) :
    t = '_' :: '_' :: t.drop 2 := by
  rcases t with _ | ⟨a, _ | ⟨b, t⟩⟩
  · simp [leadingU] at h
  · by_cases ha : a = '_' <;> simp [leadingU, ha] at h
  · by_cases ha : a = '_' <;> by_cases hb : b = '_' <;>
      simp_all [leadingU]

/-- The number of leading underscores after the `"___"`-removal pass is the
original number taken modulo 3. -/
theorem leadingU_replaceTriple (l : List Char) :
    leadingU (replaceTripleUnderscore l) = leadingU l % 3 := by
  induction l using replaceTripleUnderscore.induct with
  | case1 rest ih =>
      have h1 : replaceTripleUnderscore ('_' :: '_' :: '_' :: rest) =
          replaceTripleUnderscore rest := rfl
      rw [h1, ih]
      simp [leadingU]
      omega
  | case2 c rest h ih =>
      have hcond : ¬(c = '_' ∧ 2 ≤ leadingU rest) := by
        rintro ⟨hc, h2⟩
        exact h (rest.drop 2) hc (eq_cons_cons_of_two_le_leadingU h2)
      rw [replaceTriple_cons, if_neg hcond]
      by_cases hc : c = '_'
      · have hle : leadingU rest ≤ 1 := by
          by_contra hgt
          exact hcond ⟨hc, by omega⟩
        simp [leadingU, hc, ih]
        omega
      · simp [leadingU, hc]
  | case3 => rfl

/-- `true` exactly when the list contains three consecutive underscores. -/
def hasTripleB : List Char → Bool
  | [] => false
  | c :: t => (decide (c = '_') && decide (2 ≤ leadingU t)) || hasTripleB t

/-- After the `"___"`-removal pass no three consecutive underscores remain. -/
theorem hasTripleB_replaceTriple (l : List Char) :
    hasTripleB (replaceTripleUnderscore l) = false := by
  induction l using replaceTripleUnderscore.induct with
  | case1 rest ih =>
      have h1 : replaceTripleUnderscore ('_' :: '_' :: '_' :: rest) =
          replaceTripleUnderscore rest := rfl
      rw [h1]; exact ih
  | case2 c rest h ih =>
      have hcond : ¬(c = '_' ∧ 2 ≤ leadingU rest) := by
        rintro ⟨hc, h2⟩
        exact h (rest.drop 2) hc (eq_cons_cons_of_two_le_leadingU h2)
      rw [replaceTriple_cons, if_neg hcond]
      by_cases hc : c = '_'
      · have hle : leadingU rest ≤ 1 := by
          by_contra hgt
          exact hcond ⟨hc, by omega⟩
        have hlu := leadingU_replaceTriple rest
        simp [hasTripleB, ih, hc]
        omega
      · simp [hasTripleB, ih, hc]
  | case3 => rfl

/-- If `"___"` occurs as a substring then `hasTripleB` reports it. -/
theorem hasTripleB_of_occursIn {s : List Char} (h : occursIn ['_', '_', '_'] s) :
    hasTripleB s = true := by
  obtain ⟨u, v, rfl⟩ := h
  induction u with
  | nil =>
      have h2 : 2 ≤ leadingU ('_' :: '_' :: v) := by simp [leadingU]
      simp [hasTripleB, h2]
  | cons c u ih =>
      simp [hasTripleB]
      right
      simpa using ih

/-- Claim C7: for the fixed configuration constants of lines 9-11, the naming
function is deterministic (identical arguments give identical strings), and no
returned name contains a doubled side-separator token `"__" ++ "__"`; indeed
the final `"___"`-removal pass leaves no run of even three underscores, so
four consecutive underscores can never occur in an output. -/
theorem c7_naming_deterministic_no_doubled_separator
    (nm nn : List Char) (inc : Bool) :
    name_object nm nn inc = name_object nm nn inc ∧
    ¬ occursIn (side ++ side) (name_object nm nn inc) := by
  refine ⟨rfl, ?_⟩
  rintro ⟨u, v, hv⟩
  have h3 : occursIn ['_', '_', '_'] (name_object nm nn inc) :=
    ⟨u, '_' :: v, by rw [hv]; simp [side]⟩
  have htrue := hasTripleB_of_occursIn h3
  have hfalse : hasTripleB (name_object nm nn inc) = false := by
    unfold name_object
    exact hasTripleB_replaceTriple _
  rw [htrue] at hfalse
  cases hfalse

/-- Claim C9: the `"___"`-removal applies to the whole composed string, not
only to separator runs created by empty fields: for the base name `"a___b"`
(node role `"c"`), the three underscores supplied by the caller are deleted,
so the returned name is `"ab_trunk_var_fk_c"` — characters of the
caller-supplied field are gone from the output. -/
theorem c9_caller_field_characters_deleted :
    name_object ['a', '_', '_', '_', 'b'] ['c'] true =
      ['a', 'b', '_', 't', 'r', 'u', 'n', 'k', '_', 'v', 'a', 'r', '_', 'f',
        'k', '_', 'c'] := by decide

/-! ### Maya arithmetic-node primitives

One definition per Maya node type and operation code used by the script, on a
single scalar channel. -/

/-- Maya `plusMinusAverage` node, operation 2 (subtract), 1D inputs. -/
def pmaSubtract (a b : ℚ) : ℚ := a - b

/-- Maya `plusMinusAverage` node, default operation 1 (sum), 1D inputs. -/
def pmaSum (a b : ℚ) : ℚ := a + b

/-- Maya `multiplyDivide` node, operation 2 (divide), one channel. -/
def mdDivide (a b : ℚ) : ℚ := a / b

/-- Maya `multiplyDivide` node, default operation 1 (multiply), one channel. -/
def mdMultiply (a b : ℚ) : ℚ := a * b

/-- Maya `condition` node, operation 3 (greater or equal): the output is
`ifTrue` when `firstTerm ≥ secondTerm`, else `ifFalse`.  (In the Maya
`condition` node the operation codes are 0 equal, 1 not equal, 2 greater
than, 3 greater or equal, 4 less than, 5 less or equal; the source comment at
variable_FK.py line 416 calls code 3 "Greater than", which misstates the
host's enum.) -/
def conditionGE (firstTerm secondTerm ifTrue ifFalse : ℚ) : ℚ :=
  if firstTerm ≥ secondTerm then ifTrue else ifFalse

/-- Maya `condition` node, operation 2 (greater than), applied to a whole
colour triple, with `colorIfFalse = (0,0,0)` as set at lines 464-466. -/
def conditionGT3 (firstTerm secondTerm : ℚ) (ifTrue : ℚ × ℚ × ℚ) :
    ℚ × ℚ × ℚ :=
  if firstTerm > secondTerm then ifTrue else (0, 0, 0)

/-- Maya `remapValue` node: `inputValue` is clamped into
`[inputMin, inputMax]` and linearly remapped onto `[outputMin, outputMax]`. -/
def remapValue (input inMin inMax outMin outMax : ℚ) : ℚ :=
  outMin + (outMax - outMin) * ((max inMin (min input inMax) - inMin) / (inMax - inMin))

/-! ### Per-control attributes (variable_FK.py lines 171-233)

Arguments: `p` = the control's `position` attribute, `f` = its `falloff`
attribute, `j` = the joint's `jointPosition` attribute, `e` = the control's
`numOfJointsEffected` attribute, `r`/`rx`/`ry`/`rz` = the control's rotation
channels. -/

/-- Node `ctrl_jnts_effected_multi` (lines 219-224): `falloff * 2`. -/
def joints_effected_multi (f : ℚ) : ℚ := mdMultiply f 2

/-- Node `ctrl_jnts_effected_remap` (lines 225-233) driving the control's
`numOfJointsEffected` attribute: remap `falloff * 2` from the default input
range `[0, 1]` onto `[1, len(selection)]`, `total` being the number of
selected joints. -/
def numOfJointsEffected (f : ℚ) (total : ℕ) : ℚ :=
  remapValue (joints_effected_multi f) 0 1 1 total

/-- The sequence of `position` attribute values given to the controls
(lines 171-173 and 201-210): `value / (number_of_controls + 1)` for
`value` in Python's `range(1, number_of_controls + 1)`. -/
def control_positions (n : ℕ) : List ℚ :=
  (List.range' 1 n).map (fun v : ℕ => (v : ℚ) / ((n : ℚ) + 1))

/-! ### Falloff network for one (joint, control) pair
(variable_FK.py lines 338-471) -/

/-- Node `ctrlpos_minus_falloff_pma` (lines 347-354): `position - falloff`. -/
def falloff_rear_position (p f : ℚ) : ℚ := pmaSubtract p f

/-- Node `ctrlpos_plus_falloff_pma` (lines 355-361), default operation sum:
`position + falloff`. -/
def falloff_front_position (p f : ℚ) : ℚ := pmaSum p f

/-- Node `jntpos_minus_rear_falloff_pma` (lines 383-392, rear pass):
`jointPosition - (position - falloff)`. -/
def jntpos_minus_rear_falloff (p f j : ℚ) : ℚ :=
  pmaSubtract j (falloff_rear_position p f)

/-- Node `ctrlpos_minus_rear_falloff_pma` (lines 394-403, rear pass):
`position - (position - falloff)`. -/
def ctrlpos_minus_rear_falloff (p f : ℚ) : ℚ :=
  pmaSubtract p (falloff_rear_position p f)

/-- Node `jntpos_minus_front_falloff_pma` (lines 383-392, front pass):
`jointPosition - (position + falloff)`. -/
def jntpos_minus_front_falloff (p f j : ℚ) : ℚ :=
  pmaSubtract j (falloff_front_position p f)

/-- Node `ctrlpos_minus_front_falloff_pma` (lines 394-403, front pass):
`position - (position + falloff)`. -/
def ctrlpos_minus_front_falloff (p f : ℚ) : ℚ :=
  pmaSubtract p (falloff_front_position p f)

/-- Channel X of node `rotation_multiplier_multi` (lines 366-370, operation 2
= divide; inputs wired by the rear pass of lines 374-403). -/
def rotation_multiplier_outputX (p f j : ℚ) : ℚ :=
  mdDivide (jntpos_minus_rear_falloff p f j) (ctrlpos_minus_rear_falloff p f)

/-- Channel Y of node `rotation_multiplier_multi` (front pass). -/
def rotation_multiplier_outputY (p f j : ℚ) : ℚ :=
  mdDivide (jntpos_minus_front_falloff p f j) (ctrlpos_minus_front_falloff p f)

/-- Branch of `side_switch_condition` taken at given control and joint
positions: operation 3 compares `firstTerm = position` with `secondTerm =
jointPosition`, and the true branch (`colorIfTrueR`) carries the rear ratio
(channel X). -/
def side_switch_uses_rear (p j : ℚ) : Bool := decide (p ≥ j)

/-- Node `side_switch_condition` (lines 407-417): operation 3 on
`firstTerm = position`, `secondTerm = jointPosition`, with `colorIfTrueR`
wired to the rear ratio and `colorIfFalseR` to the front ratio.  Its
`outColorR` is the blend weight called `sideSelect` in the specification. -/
def side_switch_condition (p f j : ℚ) : ℚ :=
  conditionGE p j (rotation_multiplier_outputX p f j)
    (rotation_multiplier_outputY p f j)

/-- One channel of node `rot_mult_by_ctrl_rot_multi` (lines 424-430):
`sideSelect * rotation`. -/
def rot_mult_by_ctrl_rot (p f j r : ℚ) : ℚ :=
  mdMultiply (side_switch_condition p f j) r

/-- Node `num_of_jnts_div_multi` (lines 434-439): `1 / numOfJointsEffected`. -/
def num_of_jnts_div (e : ℚ) : ℚ := mdDivide 1 e

/-- One channel of node `num_jnts_times_ctrl_rot_multi` (lines 441-447). -/
def num_jnts_times_ctrl_rot (p f j r e : ℚ) : ℚ :=
  mdMultiply (num_of_jnts_div e) (rot_mult_by_ctrl_rot p f j r)

/-- One channel of node `final_multi` (lines 449-454): the preceding product
multiplied by the constant stored in `input2` — which the script sets to `6`
on every channel, although its comment says "Multiplies by 2". -/
def final_multi (p f j r e : ℚ) : ℚ :=
  mdMultiply (num_jnts_times_ctrl_rot p f j r e) 6

/-- Node `final_condition` (lines 457-467) whose `outColor` drives the
joint's per-control offset group rotation (line 471): operation 2 (greater
than) with `firstTerm = sideSelect`, `secondTerm` left at its default `0`,
`colorIfTrue` the `final_multi` output and `colorIfFalse = (0,0,0)`. -/
def final_condition_outColor (p f j rx ry rz e : ℚ) : ℚ × ℚ × ℚ :=
  conditionGT3 (side_switch_condition p f j) 0
    (final_multi p f j rx e, final_multi p f j ry e, final_multi p f j rz e)

/-- The blend weight computed by the network is the linear falloff ramp
`1 - |jointPosition - position| / falloff`, on both sides of the control. -/
theorem side_switch_closed_form (p f j : ℚ) (hf : 0 < f) :
    side_switch_condition p f j = 1 - |j - p| / f := by
  unfold side_switch_condition conditionGE rotation_multiplier_outputX
    rotation_multiplier_outputY jntpos_minus_rear_falloff
    jntpos_minus_front_falloff ctrlpos_minus_rear_falloff
    ctrlpos_minus_front_falloff falloff_rear_position falloff_front_position
    pmaSubtract pmaSum mdDivide
  rcases le_or_lt j p with h | h
  · rw [if_pos h, abs_of_nonpos (by linarith)]
    have h1 : p - (p - f) = f := by ring
    rw [h1]
    field_simp
    ring
  · rw [if_neg (by exact not_le.mpr h), abs_of_pos (by linarith)]
    have h1 : p - (p + f) = -f := by ring
    rw [h1, div_neg]
    field_simp
    ring

/-- Claim C3: for a control at position `p` with falloff `f > 0`, the blend
weight `sideSelect` equals 1 at `j = p`, equals 0 at `j = p + f` and at
`j = p - f`, and in general follows the linear ramp
`1 - |j - p| / f` (so it decays linearly in between). -/
theorem c3_weight_decay (p f : ℚ) (hf : 0 < f) :
    side_switch_condition p f p = 1 ∧
    side_switch_condition p f (p + f) = 0 ∧
    side_switch_condition p f (p - f) = 0 ∧
    ∀ j, side_switch_condition p f j = 1 - |j - p| / f := by
  have hgen := fun j => side_switch_closed_form p f j hf
  refine ⟨?_, ?_, ?_, hgen⟩
  · rw [hgen p]
    simp
  · rw [hgen (p + f)]
    rw [show p + f - p = f by ring, abs_of_pos hf, div_self hf.ne']
    ring
  · rw [hgen (p - f)]
    rw [show p - f - p = -f by ring, abs_neg, abs_of_pos hf, div_self hf.ne']
    ring

/-- Witness for C3 at `p = 1/2`, `f = 1/5`. -/
theorem c3_weight_decay_witness :
    0 < (1 / 5 : ℚ) ∧
    side_switch_condition (1 / 2) (1 / 5) (1 / 2) = 1 ∧
    side_switch_condition (1 / 2) (1 / 5) (1 / 2 + 1 / 5) = 0 := by
  have h := c3_weight_decay (1 / 2) (1 / 5) (by norm_num)
  exact ⟨by norm_num, h.1, h.2.1⟩

/-- Claim C1 (against the code): at `sideSelect = 1`, `rotation = 1`,
`numOfJointsEffected = 1`, the per-control rotation share produced by the
`final_multi` node is `6`, because lines 449-454 set `input2` to `6` on every
channel — not `2` as both the script's own comment ("Multiplies by 2") and
the specification state.  The third conjunct contrasts the built value with
the claimed formula `sideSelect * rotation * (1 / numOfJointsEffected) * 2`. -/
theorem c1_uniform_scale_is_six_not_two :
    side_switch_condition (1 / 2) (1 / 5) (1 / 2) = 1 ∧
    final_multi (1 / 2) (1 / 5) (1 / 2) 1 1 = 6 ∧
    final_multi (1 / 2) (1 / 5) (1 / 2) 1 1 ≠
      side_switch_condition (1 / 2) (1 / 5) (1 / 2) * 1 * (1 / 1) * 2 := by
  have hs : side_switch_condition (1 / 2) (1 / 5) (1 / 2) = 1 := by
    rw [side_switch_closed_form (1 / 2) (1 / 5) (1 / 2) (by norm_num)]
    norm_num
  have hm : final_multi (1 / 2) (1 / 5) (1 / 2) 1 1 = 6 := by
    unfold final_multi num_jnts_times_ctrl_rot num_of_jnts_div
      rot_mult_by_ctrl_rot mdMultiply mdDivide
    rw [hs]
    norm_num
  refine ⟨hs, hm, ?_⟩
  rw [hs, hm]
  norm_num

/-- Claim C4, counterexample: at `j.pos = c.position = 1/2` the side-switch
condition does not select the front branch — operation 3 of the Maya
`condition` node is greater-OR-EQUAL, so at equality it evaluates true and
the rear-branch ratio (`colorIfTrueR`, channel X) is the one selected,
contrary to the claim that the test `c.position > j.pos` is false there. -/
theorem c4_counterexample_rear_at_equality :
    ¬ side_switch_uses_rear (1 / 2) (1 / 2) = false := by
  norm_num [side_switch_uses_rear]

/-- Claim C4, amended: the side-switch condition tests
`c.position ≥ j.pos` (operation 3 = greater or equal).  At
`j.pos = c.position` it evaluates true, so the REAR-branch ratio
(`distRear / ctrlDistRear`) is the one selected; both branch ratios equal 1
at equality, so `sideSelect = 1` there either way. -/
theorem c4_amended_ge_selects_rear (p f : ℚ) (hf : 0 < f) :
    side_switch_uses_rear p p = true ∧
    (∀ j, side_switch_condition p f j =
      if side_switch_uses_rear p j then rotation_multiplier_outputX p f j
      else rotation_multiplier_outputY p f j) ∧
    rotation_multiplier_outputX p f p = 1 ∧
    rotation_multiplier_outputY p f p = 1 ∧
    side_switch_condition p f p = 1 := by
  have hx : rotation_multiplier_outputX p f p = 1 := by
    unfold rotation_multiplier_outputX jntpos_minus_rear_falloff
      ctrlpos_minus_rear_falloff falloff_rear_position pmaSubtract mdDivide
    rw [show p - (p - f) = f by ring]
    exact div_self hf.ne'
  have hy : rotation_multiplier_outputY p f p = 1 := by
    unfold rotation_multiplier_outputY jntpos_minus_front_falloff
      ctrlpos_minus_front_falloff falloff_front_position pmaSubtract pmaSum
      mdDivide
    rw [show p - (p + f) = -f by ring]
    exact div_self (neg_ne_zero.mpr hf.ne')
  refine ⟨by simp [side_switch_uses_rear], ?_, hx, hy, ?_⟩
  · intro j
    unfold side_switch_condition conditionGE side_switch_uses_rear
    by_cases hpj : p ≥ j <;> simp [hpj]
  · unfold side_switch_condition conditionGE
    rw [if_pos le_rfl]
    exact hx

/-- Witness for C4 (amended) at `p = 1/2`, `f = 1/5`. -/
theorem c4_amended_witness :
    side_switch_uses_rear (1 / 2 : ℚ) (1 / 2) = true ∧
    side_switch_condition (1 / 2) (1 / 5) (1 / 2) = 1 := by
  have h := c4_amended_ge_selects_rear (1 / 2) (1 / 5) (by norm_num)
  exact ⟨h.1, h.2.2.2.2⟩

/-- Claim C5: the rotation driven onto the joint's per-control offset group
equals the per-control share (as built, i.e. `sideSelect * rotation *
(1 / numOfJointsEffected) * 6` on each channel) whenever `sideSelect > 0`,
and equals `(0, 0, 0)` whenever `sideSelect ≤ 0`. -/
theorem c5_final_contribution (p f j rx ry rz e : ℚ) :
    (0 < side_switch_condition p f j →
      final_condition_outColor p f j rx ry rz e =
        (6 * side_switch_condition p f j * rx / e,
         6 * side_switch_condition p f j * ry / e,
         6 * side_switch_condition p f j * rz / e)) ∧
    (side_switch_condition p f j ≤ 0 →
      final_condition_outColor p f j rx ry rz e = (0, 0, 0)) := by
  constructor
  · intro hs
    unfold final_condition_outColor conditionGT3
    rw [if_pos hs]
    unfold final_multi num_jnts_times_ctrl_rot num_of_jnts_div
      rot_mult_by_ctrl_rot mdMultiply mdDivide
    simp only [Prod.mk.injEq]
    refine ⟨?_, ?_, ?_⟩ <;> (rw [one_div, div_eq_mul_inv]; ring)
  · intro hs
    unfold final_condition_outColor conditionGT3
    rw [if_neg (not_lt.mpr hs)]

/-- Witness for C5: a pair inside the falloff zone gets the share
`6 * 1 * 1 / 2 = 3` on each channel; a pair outside it gets `(0, 0, 0)`. -/
theorem c5_final_contribution_witness :
    final_condition_outColor (1 / 2) (1 / 5) (1 / 2) 1 1 1 2 = (3, 3, 3) ∧
    final_condition_outColor (1 / 2) (1 / 5) 1 1 1 1 2 = (0, 0, 0) := by
  have hs1 : side_switch_condition (1 / 2) (1 / 5) (1 / 2) = 1 := by
    rw [side_switch_closed_form (1 / 2) (1 / 5) (1 / 2) (by norm_num)]
    norm_num
  have hs2 : side_switch_condition (1 / 2) (1 / 5) 1 ≤ 0 := by
    rw [side_switch_closed_form (1 / 2) (1 / 5) 1 (by norm_num)]
    norm_num [abs_of_nonneg]
  constructor
  · have h := (c5_final_contribution (1 / 2) (1 / 5) (1 / 2) 1 1 1 2).1
      (by rw [hs1]; norm_num)
    rw [h, hs1]
    norm_num
  · exact (c5_final_contribution (1 / 2) (1 / 5) 1 1 1 1 2).2 hs2

/-- Closed form of the `numOfJointsEffected` wiring: a clamped linear ramp
from 1 (at `falloff * 2 ≤ 0`) to the selected joint count (at
`falloff * 2 ≥ 1`). -/
theorem numOfJointsEffected_closed (f : ℚ) (total : ℕ) :
    numOfJointsEffected f total =
      1 + ((total : ℚ) - 1) * max 0 (min (f * 2) 1) := by
  unfold numOfJointsEffected remapValue joints_effected_multi mdMultiply
  norm_num

/-- Claim C2, counterexample: with 3 selected joints and `falloff = 1/10`
(the attribute's minimum), `numOfJointsEffected` comes out as
`1 + (3 - 1) * (1/5) = 7/5`, not `1`: the remap sends input `0` (not input
`0.2 = 0.1 * 2`) to the output minimum `1`. -/
theorem c2_counterexample_min_falloff :
    numOfJointsEffected (1 / 10) 3 = 7 / 5 ∧
    numOfJointsEffected (1 / 10) 3 ≠ 1 := by
  rw [numOfJointsEffected_closed]
  norm_num [min_def, max_def]

/-- Claim C2, amended: `numOfJointsEffected` equals
`remap(clamp(falloff * 2, 0, 1))` with output range `[1, N]` and is
monotonically non-decreasing in `falloff`; it equals `N` at
`falloff = 1/2`, but at `falloff = 1/10` it equals `1 + (N - 1)/5` (it would
equal 1 only at `falloff ≤ 0`, below the attribute's minimum). -/
theorem c2_amended_falloff_mapping (total : ℕ) (h : 1 ≤ total) :
    (∀ f, numOfJointsEffected f total =
      1 + ((total : ℚ) - 1) * max 0 (min (f * 2) 1)) ∧
    (∀ f1 f2, f1 ≤ f2 →
      numOfJointsEffected f1 total ≤ numOfJointsEffected f2 total) ∧
    (∀ f, 1 ≤ numOfJointsEffected f total ∧
      numOfJointsEffected f total ≤ total) ∧
    numOfJointsEffected (1 / 10) total = 1 + ((total : ℚ) - 1) / 5 ∧
    numOfJointsEffected (1 / 2) total = total := by
  have htot : (1 : ℚ) ≤ total := by exact_mod_cast h
  have hclamp : ∀ f : ℚ, 0 ≤ max 0 (min (f * 2) 1) ∧ max 0 (min (f * 2) 1) ≤ 1 :=
    fun f => ⟨le_max_left 0 _, max_le (by norm_num) (min_le_right _ 1)⟩
  refine ⟨fun f => numOfJointsEffected_closed f total, ?_, ?_, ?_, ?_⟩
  · intro f1 f2 hf
    rw [numOfJointsEffected_closed, numOfJointsEffected_closed]
    have : max 0 (min (f1 * 2) 1) ≤ max 0 (min (f2 * 2) 1) :=
      max_le_max le_rfl (min_le_min (by linarith) le_rfl)
    nlinarith [this, htot]
  · intro f
    rw [numOfJointsEffected_closed]
    constructor
    · nlinarith [(hclamp f).1, htot]
    · nlinarith [(hclamp f).2, (hclamp f).1, htot]
  · rw [numOfJointsEffected_closed]
    rw [show min ((1 : ℚ) / 10 * 2) 1 = 1 / 5 by norm_num [min_def]]
    rw [show max (0 : ℚ) (1 / 5) = 1 / 5 by norm_num [max_def]]
    ring
  · rw [numOfJointsEffected_closed]
    norm_num

/-- Witness for C2 (amended) at `N = 3`. -/
theorem c2_amended_witness :
    numOfJointsEffected (1 / 10) 3 = 1 + ((3 : ℚ) - 1) / 5 ∧
    numOfJointsEffected (1 / 2) 3 = 3 := by
  have h := c2_amended_falloff_mapping 3 (by norm_num)
  refine ⟨?_, ?_⟩
  · have h1 := h.2.2.2.1
    norm_num at h1 ⊢
    exact h1
  · have h2 := h.2.2.2.2
    norm_num at h2 ⊢
    exact h2

/-- Claim C8: for `N ≥ 1` controls the `position` values are exactly
`1/(N+1), 2/(N+1), ..., N/(N+1)`, strictly increasing in creation order, and
all strictly inside `(0, 1)`. -/
theorem c8_control_spacing (n : ℕ) (h : 1 ≤ n) :
    control_positions n =
      (List.range n).map (fun i : ℕ => ((i : ℚ) + 1) / ((n : ℚ) + 1)) ∧
    (control_positions n).Pairwise (· < ·) ∧
    ∀ x ∈ control_positions n, 0 < x ∧ x < 1 := by
  have hden : (0 : ℚ) < (n : ℚ) + 1 := by positivity
  refine ⟨?_, ?_, ?_⟩
  · unfold control_positions
    rw [List.range'_eq_map_range, List.map_map]
    refine List.map_congr_left fun i _ => ?_
    simp only [Function.comp]
    push_cast
    ring_nf
  · unfold control_positions
    refine (List.pairwise_lt_range' 1 n).map _ fun a b hab => ?_
    exact (div_lt_div_iff_of_pos_right hden).mpr (by exact_mod_cast hab)
  · intro x hx
    unfold control_positions at hx
    obtain ⟨v, hv, rfl⟩ := List.mem_map.mp hx
    rw [List.mem_range'_1] at hv
    have hv1 : (1 : ℚ) ≤ (v : ℚ) := by exact_mod_cast hv.1
    have hv2 : (v : ℚ) < (n : ℚ) + 1 := by
      have h2 := hv.2
      exact_mod_cast by omega
    exact ⟨div_pos (by linarith) hden, (div_lt_one hden).mpr hv2⟩

/-- Witness for C8 at `N = 3`: positions `1/4, 1/2, 3/4`. -/
theorem c8_control_spacing_witness :
    control_positions 3 = [1 / 4, 1 / 2, 3 / 4] ∧
    (control_positions 3).Pairwise (· < ·) := by
  have h := c8_control_spacing 3 (by norm_num)
  refine ⟨?_, h.2.1⟩
  rw [h.1]
  norm_num [List.range_succ]

/-! ### Selection validation (variable_FK.py lines 50-55 and 158-161) -/

/-- A scene node as seen by the validation code: its name and its Maya node
type string. -/
structure SceneNode where
  name : String
  nodeType : String
deriving DecidableEq

/-- `cmds.ls(selection=True, type="joint")` (line 159): the current selection
restricted to nodes of type `"joint"` — non-joint nodes are silently dropped,
not reported. -/
def ls_selection_joints (sel : List SceneNode) : List SceneNode :=
  sel.filter (fun nd => nd.nodeType == "joint")

/-- The guards run by `build_variable_fk` before any scene mutation, in
source order: `if not selection: cmds.error("Nothing selected")` (lines
160-161), then inside `create_nurbs_surface` — which is called before any
node is created — `if len(joints) < 3` (lines 51-52) and
`if any(cmds.nodeType(jnt) != "joint" for jnt in joints)` (lines 54-55).
`Except.error` models `cmds.error`, which raises and aborts the build. -/
def build_variable_fk_validation (sel : List SceneNode) : Except String Unit :=
  let selection := ls_selection_joints sel
  if selection.isEmpty then Except.error "Nothing selected"
  else if selection.length < 3 then
    Except.error "Please select at least 3 input joints"
  else if selection.any (fun jnt => !(jnt.nodeType == "joint")) then
    Except.error "Select only joints"
  else Except.ok ()

/-- Claim C6, counterexample: a selection of three joints plus a non-joint
node is not rejected — the selection query filters the non-joint out and the
build proceeds (`Except.ok`), contrary to the claim that a selection
containing non-joint nodes is a precondition failure. -/
theorem c6_counterexample_mixed_selection_accepted :
    (∃ nd ∈ ([⟨"jointA", "joint"⟩, ⟨"jointB", "joint"⟩, ⟨"jointC", "joint"⟩,
        ⟨"locatorA", "locator"⟩] : List SceneNode), nd.nodeType ≠ "joint") ∧
    build_variable_fk_validation
      [⟨"jointA", "joint"⟩, ⟨"jointB", "joint"⟩, ⟨"jointC", "joint"⟩,
        ⟨"locatorA", "locator"⟩] = Except.ok () := by
  refine ⟨⟨⟨"locatorA", "locator"⟩, by simp, by simp⟩, ?_⟩
  rfl

/-- Claim C6, amended: a selection with no joints at all, or with fewer than
3 joints, is reported immediately (before any scene mutation, by
construction of the guard) and aborts the build; but non-joint nodes in the
selection are silently filtered out rather than rejected, so the build
succeeds exactly when the selection contains at least 3 joints, whatever
else it contains — the `"Select only joints"` guard is unreachable. -/
theorem c6_amended_validation (sel : List SceneNode) :
    (ls_selection_joints sel = [] →
      build_variable_fk_validation sel = Except.error "Nothing selected") ∧
    (ls_selection_joints sel ≠ [] → (ls_selection_joints sel).length < 3 →
      build_variable_fk_validation sel =
        Except.error "Please select at least 3 input joints") ∧
    (3 ≤ (ls_selection_joints sel).length →
      build_variable_fk_validation sel = Except.ok ()) := by
  have hall : ∀ nd ∈ ls_selection_joints sel, nd.nodeType = "joint" := by
    intro nd hnd
    have := List.of_mem_filter hnd
    simpa using this
  refine ⟨?_, ?_, ?_⟩
  · intro hempty
    unfold build_variable_fk_validation
    rw [if_pos (by simp [hempty])]
  · intro hne hlt
    unfold build_variable_fk_validation
    rw [if_neg (by simpa using hne), if_pos hlt]
  · intro hge
    unfold build_variable_fk_validation
    dsimp only
    split_ifs with h1 h2 h3
    · exfalso
      rw [List.isEmpty_iff] at h1
      rw [h1] at hge
      simp at hge
    · omega
    · exfalso
      rw [List.any_eq_true] at h3
      obtain ⟨nd, hnd, hbad⟩ := h3
      rw [hall nd hnd] at hbad
      simp at hbad
    · rfl

/-- Witness for C6 (amended): empty, too-small, and large-enough all-joint
selections. -/
theorem c6_amended_validation_witness :
    build_variable_fk_validation [] = Except.error "Nothing selected" ∧
    build_variable_fk_validation [⟨"a", "joint"⟩] =
      Except.error "Please select at least 3 input joints" ∧
    build_variable_fk_validation
      [⟨"a", "joint"⟩, ⟨"b", "joint"⟩, ⟨"c", "joint"⟩] = Except.ok () :=
  ⟨(c6_amended_validation []).1 rfl,
   (c6_amended_validation [⟨"a", "joint"⟩]).2.1 (by simp [ls_selection_joints])
     (by simp [ls_selection_joints]),
   (c6_amended_validation _).2.2 (by simp [ls_selection_joints])⟩

/-! ### Joint position sampling (variable_FK.py lines 276 and 296-306) -/

/-- Line 303: `current_joint_v_position / max_v_range`, the normalisation of
a joint's closest-point `parameterV` by the surface's maximum V range (read
at line 276).  The source divides with no zero guard; Python float division
by zero raises `ZeroDivisionError`, modelled here by `none`. -/
def normalized_joint_v_position (v maxV : ℚ) : Option ℚ :=
  if maxV = 0 then none else some (v / maxV)

/-- Claim C10: under the precondition that the surface's V parametric range
is nonzero, the unguarded division defining every joint's `jointPosition` is
well-defined — for every sampled `parameterV` it returns the quotient and
the error branch is unreachable. -/
theorem c10_sampling_division_welldefined (vs : List ℚ) (maxV : ℚ)
    (h : maxV ≠ 0) :
    ∀ v ∈ vs, normalized_joint_v_position v maxV = some (v / maxV) := by
  intro v _
  unfold normalized_joint_v_position
  rw [if_neg h]

/-- Witness for C10 at `parameterV = 1/2`, `maxV = 4`. -/
theorem c10_sampling_division_witness :
    (4 : ℚ) ≠ 0 ∧
    normalized_joint_v_position (1 / 2) 4 = some (1 / 2 / 4) :=
  ⟨by norm_num,
   c10_sampling_division_welldefined [1 / 2] 4 (by norm_num) (1 / 2)
     (by simp)⟩

end VariableFK
